import Mathlib

/-!
Verification of the resource/system/event-queue production simulator.

The C sources (`resource.c`, `event.c`, `system.c`) are shallowly embedded:
pure C functions become Lean functions, in-place mutation of structs reached
through pointers becomes explicit state passing (a function returns the
updated record alongside the C return value), and C `int` is modelled as
`Int`.  Semaphore waits/posts and `usleep` calls delimit critical sections
and pacing pauses; in the sequential semantics modelled here they have no
observable effect and are dropped.  The opaque `System*` / `Resource*`
back-references stored inside an `Event` are not inspected by any operation,
so an `Event` is modelled by its three integer payload fields.
-/

/-- Modelled from the spec: the header `defs.h` (declaring the status codes)
is not part of the sources; the spec only requires `OK`, `EMPTY`,
`INSUFFICIENT` and `CAPACITY` to be distinct result codes. -/
def STATUS_OK : Int := 0

/-- Modelled from the spec: result code for a resource at zero, also the
queue-pop signal for an empty queue. -/
def STATUS_EMPTY : Int := 1

/-- Modelled from the spec: result code for a nonzero but insufficient
resource. -/
def STATUS_INSUFFICIENT : Int := 2

/-- Modelled from the spec: result code for a produced resource that could
not absorb all pending output. -/
def STATUS_CAPACITY : Int := 3

/-- Modelled from the spec: numeric priority values are not in the sources;
the spec requires `HIGH > LOW`. -/
def PRIORITY_LOW : Int := 0

/-- Modelled from the spec: the high priority level, used for consumption
failures; the spec requires `HIGH > LOW`. -/
def PRIORITY_HIGH : Int := 1

/-- A `Resource`: a named capacity-bounded counter.  The `name` string and
the mutex carry no sequential semantics and are omitted. -/
structure Resource where
  amount : Int
  max_capacity : Int
deriving Repr, DecidableEq

/-- An `Event` (from `defs.h` as used by `event.c` / `system.c`): the
`System*` and `Resource*` fields are opaque references never inspected by
any queue or run operation and are omitted; the payload fields remain. -/
structure Event where
  status : Int
  priority : Int
  amount : Int
deriving Repr, DecidableEq

/-- `event_init` from `event.c`: plain field assignment. -/
def event_init (status priority amount : Int) : Event :=
  { status := status, priority := priority, amount := amount }

/-- The `EventQueue`: a singly linked list of event nodes plus a `size`
field (a C `int`).  The mutex is dropped in the sequential semantics. -/
structure EventQueue where
  head : List Event
  size : Int
deriving Repr, DecidableEq

/-- `event_queue_init` from `event.c`: `head = NULL`, `size = 0`. -/
def event_queue_init : EventQueue :=
  { head := [], size := 0 }

/-- The traversal loop of `event_queue_push` (`event.c` lines 115-121):
`current` walks forward while the next node exists and has priority `>=`
the new event's priority; the new node is linked in after `current`. -/
def insertAfter (e : Event) : Event → List Event → List Event
  | current, next :: rest =>
      if next.priority ≥ e.priority then current :: insertAfter e next rest
      else current :: e :: next :: rest
  | current, [] => [current, e]

/-- `event_queue_push` from `event.c` (non-null queue and event, successful
node allocation): insert at the head when the queue is empty or the new
event's priority is strictly greater than the head's; otherwise insert
after the last node whose priority is `>=` the new event's. `size` is
incremented. -/
def event_queue_push (q : EventQueue) (e : Event) : EventQueue :=
  match q.head with
  | [] => { head := [e], size := q.size + 1 }
  | h :: t =>
      if e.priority > h.priority then { head := e :: h :: t, size := q.size + 1 }
      else { head := insertAfter e h t, size := q.size + 1 }

/-- `event_queue_pop` from `event.c` (non-null arguments): on an empty
queue return `STATUS_EMPTY` touching nothing; otherwise hand out the head
event, unlink it, decrement `size`, and return `STATUS_OK`. -/
def event_queue_pop (q : EventQueue) : EventQueue × Option Event × Int :=
  match q.head with
  | [] => (q, none, STATUS_EMPTY)
  | h :: t => ({ head := t, size := q.size - 1 }, some h, STATUS_OK)

/-- The null-pointer guard of `event_queue_push` (`event.c` lines 85-86):
with a null queue or a null event the function returns at once, mutating
nothing.  `none` in the first argument stands for a null queue pointer,
`none` in the second for a null event pointer. -/
def event_queue_push_checked (q : Option EventQueue) (e : Option Event) :
    Option EventQueue :=
  match q, e with
  | none, _ => none
  | some q0, none => some q0
  | some q0, some e0 => some (event_queue_push q0 e0)

/-- The null-pointer guard of `event_queue_pop` (`event.c` lines 139-140):
with a null queue or a null output pointer it returns `STATUS_EMPTY`
mutating nothing.  `out_valid = false` stands for a null `event` output
pointer. -/
def event_queue_pop_checked (q : Option EventQueue) (out_valid : Bool) :
    Option EventQueue × Option Event × Int :=
  match q, out_valid with
  | none, _ => (none, none, STATUS_EMPTY)
  | some q0, false => (some q0, none, STATUS_EMPTY)
  | some q0, true =>
      let r := event_queue_pop q0
      (some r.1, r.2.1, r.2.2)

/-- One externally observable queue operation. -/
inductive QOp where
  | push : Event → QOp
  | pop : QOp
deriving Repr, DecidableEq

/-- Apply one queue operation to a queue state. -/
def applyOp (q : EventQueue) : QOp → EventQueue
  | QOp.push e => event_queue_push q e
  | QOp.pop => (event_queue_pop q).1

/-- The queue obtained from the freshly initialized queue by a sequence of
push/pop operations. -/
def runOps (ops : List QOp) : EventQueue :=
  ops.foldl applyOp event_queue_init

/-- The ordering invariant of the queue: every adjacent pair satisfies
`head.priority ≥ next.priority`. -/
def QSorted (l : List Event) : Prop :=
  l.Chain' (fun a b => b.priority ≤ a.priority)

instance : DecidablePred QSorted := fun _ =>
  inferInstanceAs (Decidable (List.Chain' _ _))

/-- The worker state machine statuses from `defs.h` as used by `system.c`. -/
inductive SystemStatus where
  | STANDARD
  | SLOW
  | FAST
  | TERMINATE
deriving Repr, DecidableEq

/-- `ResourceAmount` (`resource.c` / `defs.h`): a possibly-absent resource
reference paired with an amount.  Because `system_convert` mutates the
consumed resource and `system_store_resources` the produced one through
these references, the referenced resource state is carried inline; this is
faithful whenever the consumed and produced references do not alias. -/
structure ResourceAmount where
  resource : Option Resource
  amount : Int
deriving Repr, DecidableEq

/-- `resource_amount_init` from `resource.c`. -/
def resource_amount_init (resource : Option Resource) (amount : Int) :
    ResourceAmount :=
  { resource := resource, amount := amount }

/-- A `System` (`defs.h` as used by `system.c`): name and mutex dropped,
the event queue passed explicitly where needed. -/
structure System where
  consumed : ResourceAmount
  produced : ResourceAmount
  amount_stored : Int
  processing_time : Int
  status : SystemStatus
deriving Repr, DecidableEq

/-- `system_convert` from `system.c` lines 155-200: consume from the
consumed resource when present and sufficient, else report `EMPTY` or
`INSUFFICIENT`; on `OK` simulate the processing delay (no state change)
and account the production into `amount_stored`.  Returns the status
together with the updated system state. -/
def system_convert (s : System) : Int × System :=
  let amount_consumed := s.consumed.amount
  let (status, s1) :=
    match s.consumed.resource with
    | none => (STATUS_OK, s)
    | some r =>
        if r.amount ≥ amount_consumed then
          (STATUS_OK,
            { s with consumed :=
              { s.consumed with resource := some { r with amount := r.amount - amount_consumed } } })
        else
          ((if r.amount = 0 then STATUS_EMPTY else STATUS_INSUFFICIENT), s)
  if status = STATUS_OK then
    match s1.produced.resource with
    | some _ => (status, { s1 with amount_stored := s1.amount_stored + s1.produced.amount })
    | none => (status, { s1 with amount_stored := 0 })
  else
    (status, s1)

/-- `system_store_resources` from `system.c` lines 248-289: with no
produced resource or nothing pending, zero `amount_stored` and return
`EMPTY`; otherwise add as much of `amount_stored` as the available space
allows, and return `OK` when everything was stored, else `CAPACITY`. -/
def system_store_resources (s : System) : Int × System :=
  match s.produced.resource with
  | none => (STATUS_EMPTY, { s with amount_stored := 0 })
  | some r =>
      if s.amount_stored = 0 then
        (STATUS_EMPTY, { s with amount_stored := 0 })
      else
        let amount_to_store := s.amount_stored
        let available_space := r.max_capacity - r.amount
        let s' :=
          if available_space ≥ amount_to_store then
            { s with
              produced := { s.produced with resource := some { r with amount := r.amount + amount_to_store } },
              amount_stored := 0 }
          else if available_space > 0 then
            { s with
              produced := { s.produced with resource := some { r with amount := r.amount + available_space } },
              amount_stored := amount_to_store - available_space }
          else s
        if s'.amount_stored ≠ 0 then (STATUS_CAPACITY, s') else (STATUS_OK, s')

/-- The first half of `system_run` (`system.c` lines 93-116): when nothing
is pending, attempt `system_convert`; on failure build the reporting event
(snapshotting the consumed resource's amount, or 0 with no resource) at
`PRIORITY_HIGH`.  Returns the updated system and the list of events pushed
by this step, in push order. -/
def run_convert_step (s : System) : System × List Event :=
  if s.amount_stored = 0 then
    let r := system_convert s
    if r.1 ≠ STATUS_OK then
      let ev :=
        match r.2.consumed.resource with
        | some res => event_init r.1 PRIORITY_HIGH res.amount
        | none => event_init r.1 PRIORITY_HIGH 0
      (r.2, [ev])
    else (r.2, [])
  else (s, [])

/-- The second half of `system_run` (`system.c` lines 118-141): when
something is pending, attempt `system_store_resources`; on any status
other than `OK` build the reporting event (snapshotting the produced
resource's post-update amount, or 0 with no resource) at `PRIORITY_LOW`. -/
def run_store_step (s : System) : System × List Event :=
  if s.amount_stored > 0 then
    let r := system_store_resources s
    if r.1 ≠ STATUS_OK then
      let ev :=
        match r.2.produced.resource with
        | some res => event_init r.1 PRIORITY_LOW res.amount
        | none => event_init r.1 PRIORITY_LOW 0
      (r.2, [ev])
    else (r.2, [])
  else (s, [])

/-- `system_run` from `system.c` lines 88-143: one convert-then-store
cycle; the events produced by the two steps are pushed to the queue in
order. -/
def system_run (s : System) (q : EventQueue) : System × EventQueue :=
  let c := run_convert_step s
  let st := run_store_step c.1
  (st.1, (c.2 ++ st.2).foldl event_queue_push q)

/-- `system_create` from `system.c` lines 27-55, successful-allocation
case: fields set from the arguments, `amount_stored = 0`, initial status
`STANDARD`. -/
def system_create (consumed produced : ResourceAmount) (processing_time : Int) :
    System :=
  { consumed := consumed, produced := produced, amount_stored := 0,
    processing_time := processing_time, status := SystemStatus.STANDARD }

/-- What the caller's out-pointer designates after a `*_create` call
returns: a null pointer, a pointer into memory that was freed inside the
call, a pointer to an allocated but not fully initialized object, or a
fully initialized object. -/
inductive CreateOut (α : Type) where
  | nullPtr : CreateOut α
  | freedPtr : CreateOut α
  | halfInitPtr : CreateOut α
  | ok : α → CreateOut α
deriving Repr, DecidableEq

/-- `resource_create` from `resource.c` lines 19-53, with the outcomes of
its three fallible steps (struct `malloc`, name `malloc`, `sem_init`) made
explicit.  When the struct allocation fails, `*resource` holds the NULL
that `malloc` returned; when the name allocation fails the code frees
`*resource` without resetting the caller's pointer, leaving it aimed at
freed memory; when `sem_init` fails everything is freed and `*resource`
is set to NULL. -/
def resource_create (allocStruct allocName semOk : Bool)
    (amount max_capacity : Int) : CreateOut Resource :=
  if ¬allocStruct then CreateOut.nullPtr
  else if ¬allocName then CreateOut.freedPtr
  else if ¬semOk then CreateOut.nullPtr
  else CreateOut.ok { amount := amount, max_capacity := max_capacity }

/-- `system_create` from `system.c` lines 27-55, with the outcomes of its
two fallible allocations made explicit.  When the struct allocation fails,
`*system` holds NULL; when the name allocation fails the code returns at
once, leaving `*system` aimed at the allocated struct whose remaining
fields were never initialized. -/
def system_create_alloc (allocStruct allocName : Bool)
    (consumed produced : ResourceAmount) (processing_time : Int) :
    CreateOut System :=
  if ¬allocStruct then CreateOut.nullPtr
  else if ¬allocName then CreateOut.halfInitPtr
  else CreateOut.ok (system_create consumed produced processing_time)

/-- The per-system state invariant linking pending output to the
production rule: whenever output is pending, a produced resource exists.
It holds of every freshly created system and is preserved by every run
cycle. -/
def SysInv (s : System) : Prop :=
  0 < s.amount_stored → s.produced.resource ≠ none

instance : DecidablePred SysInv := fun s => by
  unfold SysInv; infer_instance

/-- The queue invariant claimed by the spec: adjacent nodes are ordered by
priority and `size` counts the linked nodes. -/
def QInv (q : EventQueue) : Prop :=
  QSorted q.head ∧ q.size = (q.head.length : Int)

/-- The Boolean predicate the push traversal effectively scans with: an
existing node keeps its place ahead of the new event exactly when its
priority is `≥` the new event's. -/
def keepsAhead (e : Event) : Event → Bool :=
  fun x => decide (e.priority ≤ x.priority)

/-- A concrete operation sequence used to exhibit reachable queues. -/
def opsExample : List QOp :=
  [QOp.push (event_init 0 5 1), QOp.push (event_init 0 10 2),
   QOp.push (event_init 0 5 3), QOp.pop, QOp.push (event_init 0 1 4)]

/-- A concrete system used to exhibit the run-cycle theorems: consumes 5
from a resource holding 3 of 10, produces 4 into a resource holding 8 of
10. -/
def sysExample : System :=
  { consumed := { resource := some { amount := 3, max_capacity := 10 }, amount := 5 },
    produced := { resource := some { amount := 8, max_capacity := 10 }, amount := 4 },
    amount_stored := 0, processing_time := 7, status := SystemStatus.STANDARD }

/-- A concrete system with pending output used to exhibit the store-step
theorems: 5 pending units, produced resource holding 8 of 10. -/
def sysStoreExample : System :=
  { sysExample with amount_stored := 5 }

/-- A concrete system whose conversion succeeds (it consumes nothing) and
which produces 4 into a resource holding 8 of 10. -/
def sysOkExample : System :=
  { consumed := { resource := none, amount := 0 },
    produced := { resource := some { amount := 8, max_capacity := 10 }, amount := 4 },
    amount_stored := 0, processing_time := 7, status := SystemStatus.STANDARD }

theorem push_singleton_eval :
    event_queue_push event_queue_init (event_init 0 5 0) =
      { head := [event_init 0 5 0], size := 1 } := by decide

theorem push_scenario_eval :
    (runOps [QOp.push (event_init 0 5 1), QOp.push (event_init 0 10 2),
      QOp.push (event_init 0 5 3), QOp.push (event_init 0 1 4)]).head =
    [event_init 0 10 2, event_init 0 5 1, event_init 0 5 3, event_init 0 1 4] := by
  decide

theorem store_scenario_eval :
    system_store_resources sysStoreExample =
      (STATUS_CAPACITY,
        { consumed := { resource := some { amount := 3, max_capacity := 10 }, amount := 5 },
          produced := { resource := some { amount := 10, max_capacity := 10 }, amount := 4 },
          amount_stored := 3, processing_time := 7,
          status := SystemStatus.STANDARD }) := by decide

theorem insertAfter_eq (e cur : Event) (xs : List Event) :
    insertAfter e cur xs =
      cur :: (xs.takeWhile (keepsAhead e) ++ e :: xs.dropWhile (keepsAhead e)) := by
  induction xs generalizing cur with
  | nil => simp [insertAfter]
  | cons next rest ih =>
      by_cases hp : next.priority ≥ e.priority
      · simp [insertAfter, hp, keepsAhead, List.takeWhile_cons, List.dropWhile_cons, ih next]
      · simp [insertAfter, hp, keepsAhead, List.takeWhile_cons, List.dropWhile_cons]

theorem push_head (q : EventQueue) (e : Event) :
    (event_queue_push q e).head =
      q.head.takeWhile (keepsAhead e) ++ e :: q.head.dropWhile (keepsAhead e) := by
  cases hq : q.head with
  | nil => simp [event_queue_push, hq]
  | cons h t =>
      by_cases hp : e.priority > h.priority
      · have hk : keepsAhead e h = false := by
          simp only [keepsAhead, decide_eq_false_iff_not]; omega
        simp [event_queue_push, hq, hp, hk]
      · have hk : keepsAhead e h = true := by
          simp only [keepsAhead, decide_eq_true_eq]; omega
        simp [event_queue_push, hq, hp, hk, insertAfter_eq]

theorem push_size (q : EventQueue) (e : Event) :
    (event_queue_push q e).size = q.size + 1 := by
  cases hq : q.head with
  | nil => simp [event_queue_push, hq]
  | cons h t => by_cases hp : e.priority > h.priority <;> simp [event_queue_push, hq, hp]

theorem push_head_length (q : EventQueue) (e : Event) :
    (event_queue_push q e).head.length = q.head.length + 1 := by
  rw [push_head]
  have h := congrArg List.length
    (List.takeWhile_append_dropWhile (p := keepsAhead e) (l := q.head))
  simp only [List.length_append, List.length_cons] at h ⊢
  omega

theorem sorted_head_ge (a : Event) (t : List Event) (h : QSorted (a :: t)) :
    ∀ x ∈ t, x.priority ≤ a.priority := by
  induction t generalizing a with
  | nil => simp
  | cons b t2 ih =>
      intro x hx
      rw [QSorted, List.chain'_cons] at h
      rcases List.mem_cons.mp hx with rfl | hx2
      · exact h.1
      · exact le_trans (ih b h.2 x hx2) h.1

theorem insertAfter_sorted (e : Event) (xs : List Event) :
    ∀ cur : Event, e.priority ≤ cur.priority →
      QSorted (cur :: xs) → QSorted (insertAfter e cur xs) := by
  induction xs with
  | nil =>
      intro cur hcur _
      simpa [insertAfter, QSorted] using hcur
  | cons next rest ih =>
      intro cur hcur h
      rw [QSorted, List.chain'_cons] at h
      by_cases hp : next.priority ≥ e.priority
      · have hins : insertAfter e cur (next :: rest) = cur :: insertAfter e next rest := by
          simp [insertAfter, hp]
        have h2 : QSorted (insertAfter e next rest) := ih next hp h.2
        have hhead : (insertAfter e next rest).head? = some next := by
          rw [insertAfter_eq]; rfl
        rw [hins, QSorted, List.chain'_cons']
        refine ⟨?_, h2⟩
        intro y hy
        rw [hhead, Option.mem_def, Option.some.injEq] at hy
        subst hy
        exact h.1
      · have hins : insertAfter e cur (next :: rest) = cur :: e :: next :: rest := by
          simp [insertAfter, hp]
        rw [hins, QSorted, List.chain'_cons, List.chain'_cons]
        exact ⟨hcur, by omega, h.2⟩

theorem push_sorted (q : EventQueue) (e : Event) (h : QSorted q.head) :
    QSorted (event_queue_push q e).head := by
  cases hq : q.head with
  | nil => simp [event_queue_push, hq, QSorted]
  | cons hd t =>
      rw [hq] at h
      by_cases hp : e.priority > hd.priority
      · have : (event_queue_push q e).head = e :: hd :: t := by
          simp [event_queue_push, hq, hp]
        rw [this, QSorted, List.chain'_cons]
        exact ⟨le_of_lt hp, h⟩
      · have : (event_queue_push q e).head = insertAfter e hd t := by
          simp [event_queue_push, hq, hp]
        rw [this]
        exact insertAfter_sorted e t hd (by omega) h

theorem sorted_dropWhile_lt (e : Event) (l : List Event) (h : QSorted l) :
    ∀ x ∈ l.dropWhile (keepsAhead e), x.priority < e.priority := by
  induction l with
  | nil => simp
  | cons a t ih =>
      intro x hx
      have htail : QSorted t := by
        rw [QSorted, List.chain'_cons'] at h
        exact h.2
      by_cases hp : keepsAhead e a = true
      · rw [List.dropWhile_cons, if_pos hp] at hx
        exact ih htail x hx
      · rw [List.dropWhile_cons, if_neg hp] at hx
        have ha : a.priority < e.priority := by
          simp only [keepsAhead, decide_eq_true_eq] at hp; omega
        rcases List.mem_cons.mp hx with rfl | hx2
        · exact ha
        · have := sorted_head_ge a t h x hx2
          omega

theorem pop_qinv (q : EventQueue) (h : QInv q) : QInv (event_queue_pop q).1 := by
  cases hq : q.head with
  | nil => simpa [event_queue_pop, hq] using h
  | cons hd t =>
      obtain ⟨hs, hlen⟩ := h
      rw [hq] at hs hlen
      constructor
      · have : (event_queue_pop q).1.head = t := by simp [event_queue_pop, hq]
        rw [this]
        rw [QSorted, List.chain'_cons'] at hs
        exact hs.2
      · have h1 : (event_queue_pop q).1.head = t := by simp [event_queue_pop, hq]
        have h2 : (event_queue_pop q).1.size = q.size - 1 := by simp [event_queue_pop, hq]
        rw [h1, h2, hlen]
        simp [List.length_cons]

theorem applyOp_qinv (q : EventQueue) (op : QOp) (h : QInv q) : QInv (applyOp q op) := by
  cases op with
  | push e =>
      refine ⟨push_sorted q e h.1, ?_⟩
      have := h.2
      rw [show applyOp q (QOp.push e) = event_queue_push q e from rfl,
        push_size, push_head_length]
      push_cast
      omega
  | pop => exact pop_qinv q h

theorem foldl_qinv (ops : List QOp) :
    ∀ q : EventQueue, QInv q → QInv (ops.foldl applyOp q) := by
  induction ops with
  | nil => intro q h; simpa using h
  | cons op rest ih =>
      intro q h
      exact ih _ (applyOp_qinv q op h)

theorem runOps_qinv (ops : List QOp) : QInv (runOps ops) :=
  foldl_qinv ops event_queue_init ⟨by simp [QSorted, event_queue_init], by simp [event_queue_init]⟩

/-- **C1**: every queue reachable from the empty queue by pushes and pops
has adjacent nodes ordered `head.priority ≥ next.priority` and a `size`
equal to its number of nodes; moreover a newly pushed event lands after
every existing event of priority `≥` its own (in particular after every
event of equal priority, giving FIFO order among equal priorities) and
before every event of strictly smaller priority, the existing events
keeping their relative order. -/
theorem C1_event_queue_invariant (q : EventQueue) (hreach : ∃ ops, q = runOps ops) :
    (QSorted q.head ∧ q.size = (q.head.length : Int)) ∧
    ∀ e : Event, ∃ l1 l2 : List Event,
      q.head = l1 ++ l2 ∧
      (event_queue_push q e).head = l1 ++ e :: l2 ∧
      (∀ x ∈ l1, e.priority ≤ x.priority) ∧
      (∀ x ∈ l2, x.priority < e.priority) := by
  obtain ⟨ops, rfl⟩ := hreach
  have hinv := runOps_qinv ops
  refine ⟨hinv, ?_⟩
  intro e
  refine ⟨(runOps ops).head.takeWhile (keepsAhead e),
    (runOps ops).head.dropWhile (keepsAhead e),
    (List.takeWhile_append_dropWhile _ _).symm, push_head _ e, ?_, ?_⟩
  · intro x hx
    have := List.mem_takeWhile_imp hx
    simpa [keepsAhead] using this
  · exact sorted_dropWhile_lt e _ hinv.1

/-- Witness for C1: the invariant holds of the concrete queue reached by
the operation sequence `opsExample`. -/
theorem C1_event_queue_invariant_witness :
    (∃ ops, runOps opsExample = runOps ops) ∧
    (QSorted (runOps opsExample).head ∧
      (runOps opsExample).size = ((runOps opsExample).head.length : Int)) :=
  ⟨⟨opsExample, rfl⟩,
    (C1_event_queue_invariant (runOps opsExample) ⟨opsExample, rfl⟩).1⟩

/-- **C7**: pushing any event into the freshly initialized (empty) queue
and then popping yields exactly that event with the `OK` status and the
empty queue back; popping any empty queue returns the `EMPTY` signal with
the queue (head and size) unchanged. -/
theorem C7_queue_boundary :
    (∀ e : Event, event_queue_pop (event_queue_push event_queue_init e) =
      (event_queue_init, some e, STATUS_OK)) ∧
    (∀ q : EventQueue, q.head = [] →
      event_queue_pop q = (q, none, STATUS_EMPTY)) := by
  constructor
  · intro e
    simp [event_queue_init, event_queue_push, event_queue_pop]
  · intro q h
    obtain ⟨head, size⟩ := q
    simp only at h
    subst h
    rfl

/-- Witness for C7: popping the concrete empty queue of recorded size 0
returns `EMPTY` and changes nothing. -/
theorem C7_queue_boundary_witness :
    (event_queue_init.head = []) ∧
    event_queue_pop event_queue_init = (event_queue_init, none, STATUS_EMPTY) :=
  ⟨rfl, C7_queue_boundary.2 event_queue_init rfl⟩

theorem convert_none_eq (s : System) (h : s.consumed.resource = none) :
    system_convert s =
      (STATUS_OK,
        { s with amount_stored :=
            match s.produced.resource with
            | some _ => s.amount_stored + s.produced.amount
            | none => 0 }) := by
  cases hp : s.produced.resource <;> simp [system_convert, h, hp]

theorem convert_ok_some_eq (s : System) (r : Resource) (h : s.consumed.resource = some r)
    (h2 : s.consumed.amount ≤ r.amount) :
    system_convert s =
      (STATUS_OK,
        { s with
          consumed := { s.consumed with
            resource := some { r with amount := r.amount - s.consumed.amount } },
          amount_stored :=
            match s.produced.resource with
            | some _ => s.amount_stored + s.produced.amount
            | none => 0 }) := by
  cases hp : s.produced.resource <;> simp [system_convert, h, hp, h2]

theorem convert_fail_eq (s : System) (r : Resource) (h : s.consumed.resource = some r)
    (h2 : ¬ s.consumed.amount ≤ r.amount) :
    system_convert s =
      ((if r.amount = 0 then STATUS_EMPTY else STATUS_INSUFFICIENT), s) := by
  simp only [system_convert, ge_iff_le, h]
  rw [if_neg h2]
  by_cases h0 : r.amount = 0
  · rw [if_pos h0]
    simp [STATUS_EMPTY, STATUS_OK]
  · rw [if_neg h0]
    simp [STATUS_INSUFFICIENT, STATUS_OK]

theorem store_none_eq (s : System) (h : s.produced.resource = none) :
    system_store_resources s = (STATUS_EMPTY, { s with amount_stored := 0 }) := by
  simp [system_store_resources, h]

theorem store_nothing_eq (s : System) (r : Resource) (h : s.produced.resource = some r)
    (h0 : s.amount_stored = 0) :
    system_store_resources s = (STATUS_EMPTY, { s with amount_stored := 0 }) := by
  simp [system_store_resources, h, h0]

theorem store_all_eq (s : System) (r : Resource) (h : s.produced.resource = some r)
    (h0 : s.amount_stored ≠ 0) (h2 : r.max_capacity - r.amount ≥ s.amount_stored) :
    system_store_resources s =
      (STATUS_OK,
        { s with
          produced := { s.produced with
            resource := some { r with amount := r.amount + s.amount_stored } },
          amount_stored := 0 }) := by
  simp [system_store_resources, h, h0, h2]

theorem store_part_eq (s : System) (r : Resource) (h : s.produced.resource = some r)
    (h0 : s.amount_stored ≠ 0) (h2 : ¬ r.max_capacity - r.amount ≥ s.amount_stored)
    (h3 : r.max_capacity - r.amount > 0) :
    system_store_resources s =
      (STATUS_CAPACITY,
        { s with
          produced := { s.produced with
            resource := some { r with amount := r.amount + (r.max_capacity - r.amount) } },
          amount_stored := s.amount_stored - (r.max_capacity - r.amount) }) := by
  have h4 : s.amount_stored - (r.max_capacity - r.amount) ≠ 0 := by omega
  simp [system_store_resources, h, h0, h2, h3, h4]

theorem store_full_eq (s : System) (r : Resource) (h : s.produced.resource = some r)
    (h0 : s.amount_stored ≠ 0) (h2 : ¬ r.max_capacity - r.amount ≥ s.amount_stored)
    (h3 : ¬ r.max_capacity - r.amount > 0) :
    system_store_resources s = (STATUS_CAPACITY, s) := by
  simp [system_store_resources, h, h0, h2, h3]

theorem run_convert_step_skip (s : System) (h : s.amount_stored ≠ 0) :
    run_convert_step s = (s, []) := by
  simp [run_convert_step, h]

theorem run_convert_step_ok (s : System) (h0 : s.amount_stored = 0)
    (hOK : (system_convert s).1 = STATUS_OK) :
    run_convert_step s = ((system_convert s).2, []) := by
  simp [run_convert_step, h0, hOK]

theorem run_convert_step_fail (s : System) (h0 : s.amount_stored = 0)
    (hf : (system_convert s).1 ≠ STATUS_OK) :
    run_convert_step s =
      ((system_convert s).2,
        [match (system_convert s).2.consumed.resource with
         | some res => event_init (system_convert s).1 PRIORITY_HIGH res.amount
         | none => event_init (system_convert s).1 PRIORITY_HIGH 0]) := by
  simp only [run_convert_step, h0, if_pos rfl, if_neg (by simpa using hf)]
  cases (system_convert s).2.consumed.resource <;> simp [hf]

theorem run_convert_step_fst (s : System) (h0 : s.amount_stored = 0) :
    (run_convert_step s).1 = (system_convert s).2 := by
  by_cases hOK : (system_convert s).1 = STATUS_OK
  · rw [run_convert_step_ok s h0 hOK]
  · rw [run_convert_step_fail s h0 hOK]

theorem run_store_step_skip (s : System) (h : ¬ 0 < s.amount_stored) :
    run_store_step s = (s, []) := by
  simp [run_store_step, h]

theorem run_store_step_ok (s : System) (hs : 0 < s.amount_stored)
    (hOK : (system_store_resources s).1 = STATUS_OK) :
    run_store_step s = ((system_store_resources s).2, []) := by
  simp [run_store_step, hs, hOK]

theorem run_store_step_fail (s : System) (hs : 0 < s.amount_stored)
    (hf : (system_store_resources s).1 ≠ STATUS_OK) :
    run_store_step s =
      ((system_store_resources s).2,
        [match (system_store_resources s).2.produced.resource with
         | some res => event_init (system_store_resources s).1 PRIORITY_LOW res.amount
         | none => event_init (system_store_resources s).1 PRIORITY_LOW 0]) := by
  simp only [run_store_step, if_pos hs, if_neg (by simpa using hf)]
  cases (system_store_resources s).2.produced.resource <;> simp [hf]

theorem run_store_step_fst (s : System) (hs : 0 < s.amount_stored) :
    (run_store_step s).1 = (system_store_resources s).2 := by
  by_cases hOK : (system_store_resources s).1 = STATUS_OK
  · rw [run_store_step_ok s hs hOK]
  · rw [run_store_step_fail s hs hOK]

/-- **C10**: with a null queue pointer or a null event pointer,
`event_queue_push` changes no queue, and `event_queue_pop` returns the
`EMPTY` status without mutating any queue. -/
theorem C10_null_argument_tolerance :
    (∀ e : Option Event, event_queue_push_checked none e = none) ∧
    (∀ q : EventQueue, event_queue_push_checked (some q) none = some q) ∧
    (∀ b : Bool, event_queue_pop_checked none b = (none, none, STATUS_EMPTY)) ∧
    (∀ q : EventQueue, event_queue_pop_checked (some q) false =
      (some q, none, STATUS_EMPTY)) :=
  ⟨fun _ => rfl, fun _ => rfl, fun _ => rfl, fun _ => rfl⟩

/-- **C2**: conversion case analysis.  With no consumed resource the
conversion returns `OK`; with a consumed resource holding at least the
consumption rule's amount, that amount is subtracted and `OK` returned;
otherwise (read as the code's else-chain) an amount of exactly 0 yields
`EMPTY` and a positive but insufficient amount yields `INSUFFICIENT`, the
resource being left unchanged in both failure cases. -/
theorem C2_convert_case_analysis (s : System) :
    (s.consumed.resource = none → (system_convert s).1 = STATUS_OK) ∧
    (∀ r : Resource, s.consumed.resource = some r →
      (s.consumed.amount ≤ r.amount →
        (system_convert s).1 = STATUS_OK ∧
        (system_convert s).2.consumed.resource =
          some { r with amount := r.amount - s.consumed.amount }) ∧
      (¬ s.consumed.amount ≤ r.amount → r.amount = 0 →
        (system_convert s).1 = STATUS_EMPTY ∧
        (system_convert s).2.consumed.resource = some r) ∧
      (¬ s.consumed.amount ≤ r.amount → 0 < r.amount →
        (system_convert s).1 = STATUS_INSUFFICIENT ∧
        (system_convert s).2.consumed.resource = some r)) := by
  constructor
  · intro h
    rw [convert_none_eq s h]
  · intro r h
    refine ⟨?_, ?_, ?_⟩
    · intro hle
      rw [convert_ok_some_eq s r h hle]
      exact ⟨rfl, rfl⟩
    · intro hnle h0
      rw [convert_fail_eq s r h hnle]
      rw [if_pos h0]
      exact ⟨rfl, h⟩
    · intro hnle h0
      rw [convert_fail_eq s r h hnle]
      rw [if_neg (by omega)]
      exact ⟨rfl, h⟩

/-- Witness for C2 at the concrete system `sysExample` (resource 3 of 10,
consumption rule 5): `INSUFFICIENT`, resource untouched. -/
theorem C2_convert_case_analysis_witness :
    (sysExample.consumed.resource = some { amount := 3, max_capacity := 10 }) ∧
    ((system_convert sysExample).1 = STATUS_INSUFFICIENT ∧
      (system_convert sysExample).2.consumed.resource =
        some { amount := 3, max_capacity := 10 }) :=
  ⟨by decide,
    ((C2_convert_case_analysis sysExample).2 { amount := 3, max_capacity := 10 }
      (by decide)).2.2 (by decide) (by decide)⟩

/-- **C3**: store case analysis for a present produced resource and a
positive pending amount.  Enough space: everything is added, the pending
amount is zeroed, `OK`.  Some but not enough space: exactly the available
space is added, the remainder stays pending, `CAPACITY`.  No space:
nothing changes, `CAPACITY`. -/
theorem C3_store_case_analysis (s : System) (r : Resource)
    (hp : s.produced.resource = some r) (hs : 0 < s.amount_stored) :
    (r.max_capacity - r.amount ≥ s.amount_stored →
      (system_store_resources s).1 = STATUS_OK ∧
      (system_store_resources s).2.produced.resource =
        some { r with amount := r.amount + s.amount_stored } ∧
      (system_store_resources s).2.amount_stored = 0) ∧
    (0 < r.max_capacity - r.amount → r.max_capacity - r.amount < s.amount_stored →
      (system_store_resources s).1 = STATUS_CAPACITY ∧
      (system_store_resources s).2.produced.resource =
        some { r with amount := r.amount + (r.max_capacity - r.amount) } ∧
      (system_store_resources s).2.amount_stored =
        s.amount_stored - (r.max_capacity - r.amount)) ∧
    (r.max_capacity - r.amount = 0 →
      (system_store_resources s).1 = STATUS_CAPACITY ∧
      (system_store_resources s).2.produced.resource = some r ∧
      (system_store_resources s).2.amount_stored = s.amount_stored) := by
  have h0 : s.amount_stored ≠ 0 := by omega
  refine ⟨?_, ?_, ?_⟩
  · intro h2
    rw [store_all_eq s r hp h0 h2]
    exact ⟨rfl, rfl, rfl⟩
  · intro h3 h4
    rw [store_part_eq s r hp h0 (by omega) h3]
    exact ⟨rfl, rfl, rfl⟩
  · intro hz
    rw [store_full_eq s r hp h0 (by omega) (by omega)]
    exact ⟨rfl, hp, rfl⟩

/-- Witness for C3 at the concrete system `sysStoreExample` (resource 8 of
10, pending 5): the spec's scenario — 2 stored, 3 left pending,
`CAPACITY`. -/
theorem C3_store_case_analysis_witness :
    (sysStoreExample.produced.resource = some { amount := 8, max_capacity := 10 }) ∧
    (0 : Int) < sysStoreExample.amount_stored ∧
    ((system_store_resources sysStoreExample).1 = STATUS_CAPACITY ∧
      (system_store_resources sysStoreExample).2.produced.resource =
        some { amount := 8 + (10 - 8), max_capacity := 10 } ∧
      (system_store_resources sysStoreExample).2.amount_stored = 5 - (10 - 8)) :=
  ⟨by decide, by decide,
    (C3_store_case_analysis sysStoreExample { amount := 8, max_capacity := 10 }
      (by decide) (by decide)).2.1 (by decide) (by decide)⟩

/-- **C4**: the range invariant `0 ≤ amount ≤ max_capacity` of a resource
is preserved by both Convert (on the consumed resource) and Store (on the
produced resource), given a non-negative consumption rule and a
non-negative pending amount. -/
theorem C4_resource_range_invariant (s : System)
    (hc : 0 ≤ s.consumed.amount) (hst : 0 ≤ s.amount_stored) :
    (∀ r r' : Resource, s.consumed.resource = some r →
      0 ≤ r.amount → r.amount ≤ r.max_capacity →
      (system_convert s).2.consumed.resource = some r' →
      0 ≤ r'.amount ∧ r'.amount ≤ r'.max_capacity) ∧
    (∀ r r' : Resource, s.produced.resource = some r →
      0 ≤ r.amount → r.amount ≤ r.max_capacity →
      (system_store_resources s).2.produced.resource = some r' →
      0 ≤ r'.amount ∧ r'.amount ≤ r'.max_capacity) := by
  constructor
  · intro r r' h hge hle h'
    by_cases h2 : s.consumed.amount ≤ r.amount
    · rw [convert_ok_some_eq s r h h2] at h'
      simp only [Option.some.injEq] at h'
      rw [show r' = { r with amount := r.amount - s.consumed.amount } from h'.symm]
      constructor <;> (simp; try omega)
    · rw [convert_fail_eq s r h h2] at h'
      simp only [h, Option.some.injEq] at h'
      rw [show r' = r from h'.symm]
      exact ⟨hge, hle⟩
  · intro r r' h hge hle h'
    by_cases h0 : s.amount_stored = 0
    · rw [store_nothing_eq s r h h0] at h'
      simp only [h, Option.some.injEq] at h'
      rw [show r' = r from h'.symm]
      exact ⟨hge, hle⟩
    · by_cases h2 : r.max_capacity - r.amount ≥ s.amount_stored
      · rw [store_all_eq s r h h0 h2] at h'
        simp only [Option.some.injEq] at h'
        rw [show r' = { r with amount := r.amount + s.amount_stored } from h'.symm]
        constructor <;> (simp; try omega)
      · by_cases h3 : r.max_capacity - r.amount > 0
        · rw [store_part_eq s r h h0 h2 h3] at h'
          simp only [Option.some.injEq] at h'
          rw [show r' = { r with amount := r.amount + (r.max_capacity - r.amount) }
            from h'.symm]
          constructor <;> (simp; try omega)
        · rw [store_full_eq s r h h0 h2 h3] at h'
          simp only [h, Option.some.injEq] at h'
          rw [show r' = r from h'.symm]
          exact ⟨hge, hle⟩

/-- Witness for C4 at the concrete system `sysExample`: the consumed
resource (3 of 10) stays inside its range across Convert. -/
theorem C4_resource_range_invariant_witness :
    (0 ≤ sysExample.consumed.amount) ∧ (0 ≤ sysExample.amount_stored) ∧
    ((0 : Int) ≤ (3 : Int) ∧ (3 : Int) ≤ (10 : Int)) :=
  ⟨by decide, by decide,
    (C4_resource_range_invariant sysExample (by decide) (by decide)).1
      { amount := 3, max_capacity := 10 } { amount := 3, max_capacity := 10 }
      (by decide) (by decide) (by decide) (by decide)⟩

/-- **C5**: in a run cycle, a conversion failure with a present consumed
resource pushes exactly one event, at `PRIORITY_HIGH`, carrying the
consumed resource's snapshotted amount; a store step that leaves output
pending pushes exactly one event, with status `CAPACITY`, at
`PRIORITY_LOW`, carrying the produced resource's post-update amount; and
`HIGH > LOW` as integers. -/
theorem C5_event_emission (s : System) :
    (∀ r : Resource, s.amount_stored = 0 → s.consumed.resource = some r →
      (system_convert s).1 ≠ STATUS_OK →
      (run_convert_step s).2 =
        [event_init (system_convert s).1 PRIORITY_HIGH r.amount]) ∧
    ((run_store_step s).1.amount_stored > 0 →
      ∃ (ev : Event) (r' : Resource), (run_store_step s).2 = [ev] ∧
        ev.status = STATUS_CAPACITY ∧ ev.priority = PRIORITY_LOW ∧
        (run_store_step s).1.produced.resource = some r' ∧
        ev.amount = r'.amount) ∧
    PRIORITY_LOW < PRIORITY_HIGH := by
  refine ⟨?_, ?_, by decide⟩
  · intro r h0 h hf
    rw [run_convert_step_fail s h0 hf]
    have h2 : ¬ s.consumed.amount ≤ r.amount := by
      intro hle
      rw [convert_ok_some_eq s r h hle] at hf
      exact hf rfl
    rw [convert_fail_eq s r h h2]
    simp [h]
  · intro hpost
    by_cases hs : 0 < s.amount_stored
    · have h0 : s.amount_stored ≠ 0 := by omega
      have hfst := run_store_step_fst s hs
      cases hp : s.produced.resource with
      | none =>
          rw [hfst, store_none_eq s hp] at hpost
          simp at hpost
      | some r =>
          by_cases h2 : r.max_capacity - r.amount ≥ s.amount_stored
          · rw [hfst, store_all_eq s r hp h0 h2] at hpost
            simp at hpost
          · by_cases h3 : r.max_capacity - r.amount > 0
            · have heq := store_part_eq s r hp h0 h2 h3
              have hf : (system_store_resources s).1 ≠ STATUS_OK := by
                rw [heq]; norm_num [STATUS_CAPACITY, STATUS_OK]
              rw [run_store_step_fail s hs hf, heq]
              exact ⟨event_init STATUS_CAPACITY PRIORITY_LOW
                  (r.amount + (r.max_capacity - r.amount)),
                { r with amount := r.amount + (r.max_capacity - r.amount) },
                rfl, rfl, rfl, rfl, rfl⟩
            · have heq := store_full_eq s r hp h0 h2 h3
              have hf : (system_store_resources s).1 ≠ STATUS_OK := by
                rw [heq]; norm_num [STATUS_CAPACITY, STATUS_OK]
              rw [run_store_step_fail s hs hf, heq]
              exact ⟨event_init STATUS_CAPACITY PRIORITY_LOW r.amount, r,
                by simp [hp], rfl, rfl, hp, rfl⟩
    · rw [run_store_step_skip s hs] at hpost
      exact absurd hpost (by simpa using hs)

/-- Witness for C5 at the concrete system `sysExample`: the failed
conversion (3 of 10 against a rule of 5) pushes exactly the
`PRIORITY_HIGH` event carrying amount 3. -/
theorem C5_event_emission_witness :
    (sysExample.amount_stored = 0) ∧
    ((run_convert_step sysExample).2 =
      [event_init (system_convert sysExample).1 PRIORITY_HIGH 3]) :=
  ⟨by decide,
    (C5_event_emission sysExample).1 { amount := 3, max_capacity := 10 }
      (by decide) (by decide) (by decide)⟩

/-- **C6**: in a run cycle, the Convert step runs only when nothing is
pending (`amount_stored = 0`), and after a successful conversion the
pending amount equals `produced.amount` when a produced resource exists
and 0 when none does. -/
theorem C6_production_accounting (s : System) :
    (s.amount_stored ≠ 0 → run_convert_step s = (s, [])) ∧
    (s.amount_stored = 0 → (system_convert s).1 = STATUS_OK →
      ((s.produced.resource ≠ none →
        (run_convert_step s).1.amount_stored = s.produced.amount) ∧
       (s.produced.resource = none →
        (run_convert_step s).1.amount_stored = 0))) := by
  constructor
  · exact run_convert_step_skip s
  · intro h0 hOK
    have hfst := run_convert_step_fst s h0
    have hbody : (system_convert s).2.amount_stored =
        (match s.produced.resource with
         | some _ => s.amount_stored + s.produced.amount
         | none => 0) := by
      cases hc : s.consumed.resource with
      | none => rw [convert_none_eq s hc]
      | some r =>
          have h2 : s.consumed.amount ≤ r.amount := by
            by_contra h2
            rw [convert_fail_eq s r hc h2] at hOK
            by_cases hz : r.amount = 0 <;>
              simp [hz, STATUS_EMPTY, STATUS_INSUFFICIENT, STATUS_OK] at hOK
          rw [convert_ok_some_eq s r hc h2]
    constructor
    · intro hprod
      rw [hfst, hbody]
      cases hp : s.produced.resource with
      | none => exact absurd hp hprod
      | some r => simp [h0]
    · intro hprod
      rw [hfst, hbody, hprod]

/-- Witness for C6 at the concrete system `sysOkExample`: conversion
succeeds and the pending amount ends at `produced.amount = 4`. -/
theorem C6_production_accounting_witness :
    (sysOkExample.amount_stored = 0) ∧
    ((system_convert sysOkExample).1 = STATUS_OK) ∧
    ((run_convert_step sysOkExample).1.amount_stored =
      sysOkExample.produced.amount) :=
  ⟨by decide, by decide,
    ((C6_production_accounting sysOkExample).2 (by decide) (by decide)).1
      (by decide)⟩

theorem sysInv_system_create (c p : ResourceAmount) (t : Int) :
    SysInv (system_create c p t) := by
  intro h
  simp [system_create] at h

theorem sysInv_run_convert_step (s : System) (h : SysInv s) :
    SysInv (run_convert_step s).1 := by
  by_cases h0 : s.amount_stored = 0
  · rw [run_convert_step_fst s h0]
    cases hc : s.consumed.resource with
    | none =>
        rw [convert_none_eq s hc]
        intro hst
        cases hp : s.produced.resource with
        | none => simp [hp] at hst
        | some r => simp [hp]
    | some r =>
        by_cases h2 : s.consumed.amount ≤ r.amount
        · rw [convert_ok_some_eq s r hc h2]
          intro hst
          cases hp : s.produced.resource with
          | none => simp [hp] at hst
          | some r2 => simp [hp]
        · rw [convert_fail_eq s r hc h2]
          exact h
  · rw [run_convert_step_skip s h0]
    exact h

theorem sysInv_run_store_step (s : System) (h : SysInv s) :
    SysInv (run_store_step s).1 := by
  by_cases hs : 0 < s.amount_stored
  · rw [run_store_step_fst s hs]
    have h0 : s.amount_stored ≠ 0 := by omega
    cases hp : s.produced.resource with
    | none =>
        rw [store_none_eq s hp]
        intro hst
        simp at hst
    | some r =>
        by_cases h2 : r.max_capacity - r.amount ≥ s.amount_stored
        · rw [store_all_eq s r hp h0 h2]
          intro hst
          simp at hst
        · by_cases h3 : r.max_capacity - r.amount > 0
          · rw [store_part_eq s r hp h0 h2 h3]
            intro hst
            simp
          · rw [store_full_eq s r hp h0 h2 h3]
            exact h
  · rw [run_store_step_skip s hs]
    exact h

theorem sysInv_system_run (s : System) (q : EventQueue) (h : SysInv s) :
    SysInv (system_run s q).1 := by
  have h2 := sysInv_run_store_step (run_convert_step s).1 (sysInv_run_convert_step s h)
  simpa [system_run] using h2

/-- **C9**: under the state invariant `SysInv` (pending output implies a
present produced resource — established by `system_create` and preserved
by every run cycle), the `EMPTY` code arises from conversion only when the
consumed resource's amount is zero; an attempted store reports only `OK`
or `CAPACITY`; and with no produced resource the store routine resets the
pending amount to 0 while the run cycle's store step emits no event. -/
theorem C9_result_code_taxonomy (s : System) (hInv : SysInv s) :
    ((system_convert s).1 = STATUS_EMPTY →
      ∃ r : Resource, s.consumed.resource = some r ∧ r.amount = 0) ∧
    (0 < s.amount_stored →
      (system_store_resources s).1 = STATUS_OK ∨
      (system_store_resources s).1 = STATUS_CAPACITY) ∧
    (s.produced.resource = none →
      (system_store_resources s).2.amount_stored = 0 ∧
      (run_store_step s).2 = []) := by
  refine ⟨?_, ?_, ?_⟩
  · intro hE
    cases hc : s.consumed.resource with
    | none =>
        rw [convert_none_eq s hc] at hE
        simp [STATUS_OK, STATUS_EMPTY] at hE
    | some r =>
        by_cases h2 : s.consumed.amount ≤ r.amount
        · rw [convert_ok_some_eq s r hc h2] at hE
          simp [STATUS_OK, STATUS_EMPTY] at hE
        · rw [convert_fail_eq s r hc h2] at hE
          by_cases h0 : r.amount = 0
          · exact ⟨r, rfl, h0⟩
          · rw [if_neg h0] at hE
            simp [STATUS_INSUFFICIENT, STATUS_EMPTY] at hE
  · intro hs
    have h0 : s.amount_stored ≠ 0 := by omega
    cases hp : s.produced.resource with
    | none => exact absurd hp (hInv hs)
    | some r =>
        by_cases h2 : r.max_capacity - r.amount ≥ s.amount_stored
        · left
          rw [store_all_eq s r hp h0 h2]
        · right
          by_cases h3 : r.max_capacity - r.amount > 0
          · rw [store_part_eq s r hp h0 h2 h3]
          · rw [store_full_eq s r hp h0 h2 h3]
  · intro hp
    refine ⟨by rw [store_none_eq s hp], ?_⟩
    by_cases hs : 0 < s.amount_stored
    · exact absurd hp (hInv hs)
    · rw [run_store_step_skip s hs]

/-- Witness for C9 at the concrete system `sysStoreExample` (pending 5,
produced resource present): the attempted store reports `OK` or
`CAPACITY`. -/
theorem C9_result_code_taxonomy_witness :
    SysInv sysStoreExample ∧
    ((system_store_resources sysStoreExample).1 = STATUS_OK ∨
      (system_store_resources sysStoreExample).1 = STATUS_CAPACITY) :=
  ⟨by decide,
    (C9_result_code_taxonomy sysStoreExample (by decide)).2.1 (by decide)⟩

/-- **C8** (refuting the claim as stated — the code is the slip): when the
name allocation inside `resource_create` fails, the struct is freed but
the caller's pointer is not reset, so the caller is handed a pointer into
freed memory; when the name allocation inside `system_create` fails, the
function returns at once and the caller is handed the allocated but
half-initialized struct.  Both contradict the claim that the caller is
never handed a dangling or partially-initialized object. -/
theorem C8_allocation_failure_behaviour :
    resource_create true false true 5 10 = CreateOut.freedPtr ∧
    system_create_alloc true false (resource_amount_init none 0)
      (resource_amount_init none 0) 3 = CreateOut.halfInitPtr :=
  ⟨rfl, rfl⟩

